import Mathlib

/-!
Verification of the feature-dispatch and coordinate-projection engine of
`packages/language-service/lib/utils/featureWorkers.ts`.

The TypeScript source is shallowly embedded:
* generators become `List`-producing functions;
* JavaScript truthiness of a generic result value `T | null | undefined`
  is modelled by an explicit truthiness predicate `truthy : T → Bool`
  together with `Option T` (`none` = `null`/`undefined`);
* a plugin invocation that may throw returns `WorkerRet T`
  (`.throws` = thrown error / rejected promise);
* the abstract oracles (document cache, source-map oracle, script registry)
  are function fields of an explicit context record;
* the dispatch loops additionally thread a log of the plugin invocations
  actually performed, so that non-invocation (short-circuit, error
  isolation, absent script) is an observable property of the model.
-/

/-- URIs are abstract identifiers for the embedding. -/
abbrev Uri := Nat

/-- Line/character position, as in `vscode-languageserver-textdocument`. -/
structure Pos where
  line : Nat
  character : Nat
deriving DecidableEq, Repr

/-- A text buffer from the document cache: its cache key
(uri, languageId, snapshot) plus the offset⇄position conversions the
projection helpers use.  The cache itself is an abstract oracle
(`Ctx.documents`). -/
structure TextDoc where
  uri : Uri
  languageId : Nat
  snapshot : Nat
  offsetAt : Pos → Nat
  positionAt : Nat → Pos

/-- Opaque offset-mapping oracle (`SourceMap<CodeInformation>`): point
queries return a list of tuples whose component 0 is the mapped offset,
filtered by a capability predicate over `CodeInformation` (abstract, a
`Nat` here). -/
structure SourceMap where
  getSourceOffsets : Nat → (Nat → Bool) → List (Nat × Nat)
  getGeneratedOffsets : Nat → (Nat → Bool) → List (Nat × Nat)

/-- The tuple `DocumentsAndMap = [sourceDocument, embeddedDocument, map]`. -/
abbrev DocumentsAndMap := TextDoc × TextDoc × SourceMap

/-- A `VirtualCode`: id, language id, abstract snapshot, and the ordered
child `embeddedCodes`. -/
inductive VirtualCode where
  | mk (id : Nat) (languageId : Nat) (snapshot : Nat)
       (embeddedCodes : List VirtualCode)

def VirtualCode.cid : VirtualCode → Nat
  | .mk i _ _ _ => i

def VirtualCode.languageId : VirtualCode → Nat
  | .mk _ l _ _ => l

def VirtualCode.snapshot : VirtualCode → Nat
  | .mk _ _ s _ => s

def VirtualCode.embeddedCodes : VirtualCode → List VirtualCode
  | .mk _ _ _ cs => cs

/-- A `SourceScript`: URI identity, language id, snapshot, and the root
of the generated (virtual) code tree when the script is generated. -/
structure SourceScript where
  sid : Uri
  languageId : Nat
  snapshot : Nat
  generated : Option VirtualCode

/-- A plugin registry entry `[LanguageServicePlugin,
LanguageServicePluginInstance]`: descriptor display name plus the
instance identity used as the disabled-set key. -/
structure Plugin where
  name : String
  inst : Nat
deriving DecidableEq

/-- The slice of `LanguageServiceContext` the dispatcher reads: plugin
registry, disabled sets, the embedded-document-URI encoder, the document
cache, the script registry and the map oracle. -/
structure Ctx where
  plugins : List Plugin
  disabledServicePlugins : Nat → Bool
  disabledEmbeddedDocumentUris : Uri → Bool
  encodeEmbeddedDocumentUri : Uri → Nat → Uri
  documents : Uri → Nat → Nat → TextDoc
  scripts : Uri → Option SourceScript
  maps : VirtualCode → SourceScript → SourceMap

mutual

/-- The walker `forEachEmbeddedDocument`: post-order generator over the virtual-code
tree; children are walked first, then the node itself is emitted unless
its encoded embedded-document URI is disabled. -/
def forEachEmbeddedDocument (context : Ctx) (sourceScript : SourceScript) :
    VirtualCode → List DocumentsAndMap
  | cur@(.mk _ _ _ children) =>
    forEachEmbeddedList context sourceScript children ++
    (let embeddedDocumentUri :=
      context.encodeEmbeddedDocumentUri sourceScript.sid cur.cid
     if context.disabledEmbeddedDocumentUris embeddedDocumentUri then []
     else
       [(context.documents sourceScript.sid cur.languageId cur.snapshot,
         context.documents embeddedDocumentUri cur.languageId cur.snapshot,
         context.maps cur sourceScript)])

/-- The `for (const embeddedCode of current.embeddedCodes) yield*` loop of
`forEachEmbeddedDocument`. -/
def forEachEmbeddedList (context : Ctx) (sourceScript : SourceScript) :
    List VirtualCode → List DocumentsAndMap
  | [] => []
  | c :: cs =>
    forEachEmbeddedDocument context sourceScript c ++
    forEachEmbeddedList context sourceScript cs

end

mutual

/-- Modelled from the spec: the post-order node listing of an embedding
tree — every descendant first (children in declared order), the node
itself last.  Used as the specification-side traversal order. -/
def postOrderNodes : VirtualCode → List VirtualCode
  | cur@(.mk _ _ _ children) => postOrderList children ++ [cur]

/-- Post-order listing of a forest, in declared order. -/
def postOrderList : List VirtualCode → List VirtualCode
  | [] => []
  | c :: cs => postOrderNodes c ++ postOrderList cs

end

/-- The `DocumentsAndMap` tuple the walker builds for one node. -/
def emitDoc (context : Ctx) (sourceScript : SourceScript)
    (cur : VirtualCode) : DocumentsAndMap :=
  (context.documents sourceScript.sid cur.languageId cur.snapshot,
   context.documents (context.encodeEmbeddedDocumentUri sourceScript.sid cur.cid)
     cur.languageId cur.snapshot,
   context.maps cur sourceScript)

/-- The walker's per-node emission: `none` when the node's encoded URI is
disabled, otherwise the tuple it yields. -/
def emitIfEnabled (context : Ctx) (sourceScript : SourceScript)
    (cur : VirtualCode) : Option DocumentsAndMap :=
  if context.disabledEmbeddedDocumentUris
      (context.encodeEmbeddedDocumentUri sourceScript.sid cur.cid) then none
  else some (emitDoc context sourceScript cur)

/-- One step of `getEmbeddedFilesByLevel`'s `while` loop body: the
enabled children of every file of the previous level, in order. -/
def nextLevelFiles (context : Ctx) (sourceFileUri : Uri)
    (files : List VirtualCode) : List VirtualCode :=
  files.flatMap fun file =>
    file.embeddedCodes.filter fun embedded =>
      !context.disabledEmbeddedDocumentUris
        (context.encodeEmbeddedDocumentUri sourceFileUri embedded.cid)

/-- The `while (true)` loop of `getEmbeddedFilesByLevel`: grow the
by-level table until it covers the requested level, then index it. -/
def getEmbeddedFilesByLevelLoop (context : Ctx) (sourceFileUri : Uri)
    (embeddedFilesByLevel : List (List VirtualCode)) (level : Nat) :
    List VirtualCode :=
  if embeddedFilesByLevel.length > level then
    embeddedFilesByLevel.getD level []
  else
    getEmbeddedFilesByLevelLoop context sourceFileUri
      (embeddedFilesByLevel ++
        [nextLevelFiles context sourceFileUri
          (embeddedFilesByLevel.getD (embeddedFilesByLevel.length - 1) [])])
      level
termination_by level + 1 - embeddedFilesByLevel.length

/-- The entry point `getEmbeddedFilesByLevel`: starts from `[[rootFile]]`. -/
def getEmbeddedFilesByLevel (context : Ctx) (sourceFileUri : Uri)
    (rootFile : VirtualCode) (level : Nat) : List VirtualCode :=
  getEmbeddedFilesByLevelLoop context sourceFileUri [[rootFile]] level

/-- Modelled from the spec: level 0 is `[root]`, level k+1 is the enabled
children of level k. -/
def specLevel (context : Ctx) (sourceFileUri : Uri) (rootFile : VirtualCode) :
    Nat → List VirtualCode
  | 0 => [rootFile]
  | k + 1 => nextLevelFiles context sourceFileUri
      (specLevel context sourceFileUri rootFile k)

/-- The level table after `n` loop iterations: levels `0 .. n`. -/
def specLevels (context : Ctx) (sourceFileUri : Uri) (rootFile : VirtualCode)
    (n : Nat) : List (List VirtualCode) :=
  (List.range (n + 1)).map (specLevel context sourceFileUri rootFile)
/-- Result of one plugin invocation: a thrown error / rejected promise,
or a returned value (`none` = `null`/`undefined`). -/
inductive WorkerRet (T : Type) where
  | throws
  | ret (v : Option T)

/-- The wrapper `safeCall`: awaits the callback; a throw is caught (and logged) and
becomes `undefined`. -/
def safeCall {T : Type} : WorkerRet T → Option T
  | .throws => none
  | .ret v => v

/-- Record of one performed plugin invocation (instrumentation: lets the
theorems talk about which invocations happen). -/
structure InvRec (K : Type) where
  plugin : Plugin
  document : TextDoc
  params : K
  docs : Option DocumentsAndMap

/-- Dispatch state: accumulated `results` plus the invocation log. -/
abbrev DState (T K : Type) := List T × List (InvRec K)

/-- The caller-supplied `worker` callback. -/
abbrev Worker (T K : Type) :=
  Plugin → TextDoc → K → Option DocumentsAndMap → WorkerRet T

/-- The caller-supplied `transformResult` callback. -/
abbrev Transform (T : Type) := T → Option DocumentsAndMap → Option T

/-- The optional caller-supplied `combineResult` callback. -/
abbrev Combine (T : Type) := Option (List T → T)

/-- The innermost plugin loop of the generated path of
`languageFeatureWorker` (lines 66–88): skip disabled plugins, skip
everything once a result exists and no combiner was supplied, otherwise
invoke through `safeCall`, drop falsy raw results, transform, drop falsy
transformed results, else accumulate.  `truthy` decides JS truthiness of
a `T`; the second state component logs the invocations performed. -/
def genPluginLoop {T K : Type} (context : Ctx) (truthy : T → Bool)
    (worker : Worker T K) (transformResult : Transform T)
    (combineResult : Combine T) (docs : DocumentsAndMap) (mappedArg : K) :
    List Plugin → DState T K → DState T K
  | [], st => st
  | plugin :: rest, st =>
    if context.disabledServicePlugins plugin.inst then
      genPluginLoop context truthy worker transformResult combineResult
        docs mappedArg rest st
    else if st.1.length != 0 && !combineResult.isSome then
      genPluginLoop context truthy worker transformResult combineResult
        docs mappedArg rest st
    else
      let rawResult := safeCall (worker plugin docs.2.1 mappedArg (some docs))
      let st1 : DState T K :=
        (st.1, st.2 ++ [⟨plugin, docs.2.1, mappedArg, some docs⟩])
      match rawResult with
      | none =>
        genPluginLoop context truthy worker transformResult combineResult
          docs mappedArg rest st1
      | some v =>
        if !truthy v then
          genPluginLoop context truthy worker transformResult combineResult
            docs mappedArg rest st1
        else
          match transformResult v (some docs) with
          | none =>
            genPluginLoop context truthy worker transformResult combineResult
              docs mappedArg rest st1
          | some mappedResult =>
            if !truthy mappedResult then
              genPluginLoop context truthy worker transformResult combineResult
                docs mappedArg rest st1
            else
              genPluginLoop context truthy worker transformResult combineResult
                docs mappedArg rest (st1.1 ++ [mappedResult], st1.2)

/-- The `for (const mappedArg of eachVirtualDocParams(docs))` loop
(lines 60–89). -/
def virtualParamsLoop {T K : Type} (context : Ctx) (truthy : T → Bool)
    (worker : Worker T K) (transformResult : Transform T)
    (combineResult : Combine T) (docs : DocumentsAndMap) :
    List K → DState T K → DState T K
  | [], st => st
  | mappedArg :: rest, st =>
    if st.1.length != 0 && !combineResult.isSome then
      virtualParamsLoop context truthy worker transformResult combineResult
        docs rest st
    else
      virtualParamsLoop context truthy worker transformResult combineResult
        docs rest
        (genPluginLoop context truthy worker transformResult combineResult
          docs mappedArg context.plugins st)

/-- The `for (const docs of forEachEmbeddedDocument(...))` loop
(lines 54–90). -/
def embeddedDocsLoop {T K : Type} (context : Ctx) (truthy : T → Bool)
    (eachVirtualDocParams : DocumentsAndMap → List K)
    (worker : Worker T K) (transformResult : Transform T)
    (combineResult : Combine T) :
    List DocumentsAndMap → DState T K → DState T K
  | [], st => st
  | docs :: rest, st =>
    if st.1.length != 0 && !combineResult.isSome then
      embeddedDocsLoop context truthy eachVirtualDocParams worker
        transformResult combineResult rest st
    else
      embeddedDocsLoop context truthy eachVirtualDocParams worker
        transformResult combineResult rest
        (virtualParamsLoop context truthy worker transformResult combineResult
          docs (eachVirtualDocParams docs) st)

/-- The plugin loop of the non-generated path (lines 97–120): like the
generated loop but with no mapping context, and a `break` after the
first accumulated result when no combiner was supplied. -/
def realPluginLoop {T K : Type} (context : Ctx) (truthy : T → Bool)
    (worker : Worker T K) (transformResult : Transform T)
    (combineResult : Combine T) (document : TextDoc) (params : K) :
    List Plugin → DState T K → DState T K
  | [], st => st
  | plugin :: rest, st =>
    if context.disabledServicePlugins plugin.inst then
      realPluginLoop context truthy worker transformResult combineResult
        document params rest st
    else
      let embeddedResult := safeCall (worker plugin document params none)
      let st1 : DState T K := (st.1, st.2 ++ [⟨plugin, document, params, none⟩])
      match embeddedResult with
      | none =>
        realPluginLoop context truthy worker transformResult combineResult
          document params rest st1
      | some v =>
        if !truthy v then
          realPluginLoop context truthy worker transformResult combineResult
            document params rest st1
        else
          match transformResult v none with
          | none =>
            realPluginLoop context truthy worker transformResult combineResult
              document params rest st1
          | some result =>
            if !truthy result then
              realPluginLoop context truthy worker transformResult combineResult
                document params rest st1
            else
              let st2 : DState T K := (st1.1 ++ [result], st1.2)
              if !combineResult.isSome then st2
              else
                realPluginLoop context truthy worker transformResult combineResult
                  document params rest st2

/-- The accumulation phase of `languageFeatureWorker` for a resolved
source script: the generated path walks the embedding tree, the
non-generated path runs the plugin loop once on the script's own
document. -/
def lfwRunScript {T K : Type} (context : Ctx) (truthy : T → Bool)
    (getRealDocParams : Unit → K)
    (eachVirtualDocParams : DocumentsAndMap → List K)
    (worker : Worker T K) (transformResult : Transform T)
    (combineResult : Combine T) (uri : Uri) (sourceScript : SourceScript) :
    DState T K :=
  match sourceScript.generated with
  | some root =>
    embeddedDocsLoop context truthy eachVirtualDocParams worker
      transformResult combineResult
      (forEachEmbeddedDocument context sourceScript root) ([], [])
  | none =>
    let document :=
      context.documents uri sourceScript.languageId sourceScript.snapshot
    let params := getRealDocParams ()
    realPluginLoop context truthy worker transformResult combineResult
      document params context.plugins ([], [])

/-- The dispatcher `languageFeatureWorker` (lines 36–130): resolve the script (absent →
no result), accumulate, then combine / first result / nothing. -/
def languageFeatureWorker {T K : Type} (context : Ctx) (uri : Uri)
    (truthy : T → Bool) (getRealDocParams : Unit → K)
    (eachVirtualDocParams : DocumentsAndMap → List K)
    (worker : Worker T K) (transformResult : Transform T)
    (combineResult : Combine T) : Option T :=
  match context.scripts uri with
  | none => none
  | some sourceScript =>
    let results := (lfwRunScript context truthy getRealDocParams
      eachVirtualDocParams worker transformResult combineResult
      uri sourceScript).1
    if combineResult.isSome && decide (results.length > 0) then
      combineResult.map fun combine => combine results
    else if results.length > 0 then
      results[0]?
    else
      none

/-- The plugin invocations a `languageFeatureWorker` call performs. -/
def lfwTrace {T K : Type} (context : Ctx) (uri : Uri) (truthy : T → Bool)
    (getRealDocParams : Unit → K)
    (eachVirtualDocParams : DocumentsAndMap → List K)
    (worker : Worker T K) (transformResult : Transform T)
    (combineResult : Combine T) : List (InvRec K) :=
  match context.scripts uri with
  | none => []
  | some sourceScript =>
    (lfwRunScript context truthy getRealDocParams eachVirtualDocParams
      worker transformResult combineResult uri sourceScript).2

/-- The accumulated results of a `languageFeatureWorker` call (empty
when the target URI is unknown to the script registry). -/
def lfwResults {T K : Type} (context : Ctx) (uri : Uri) (truthy : T → Bool)
    (getRealDocParams : Unit → K)
    (eachVirtualDocParams : DocumentsAndMap → List K)
    (worker : Worker T K) (transformResult : Transform T)
    (combineResult : Combine T) : List T :=
  match context.scripts uri with
  | none => []
  | some sourceScript =>
    (lfwRunScript context truthy getRealDocParams eachVirtualDocParams
      worker transformResult combineResult uri sourceScript).1

/-- The entry point `documentFeatureWorker` (lines 13–34): whole-document specialization
of `languageFeatureWorker`; the virtual-params generator yields one
empty parameter set iff `valid docs` holds. -/
def documentFeatureWorker {T : Type} (context : Ctx) (uri : Uri)
    (truthy : T → Bool) (valid : DocumentsAndMap → Bool)
    (worker : Plugin → TextDoc → WorkerRet T)
    (transformResult : Transform T) (combineResult : Combine T) : Option T :=
  languageFeatureWorker context uri truthy (fun _ => ())
    (fun docs => if valid docs then [()] else [])
    (fun plugin document _ _ => worker plugin document)
    transformResult combineResult

/-- The projector `getSourcePositions`: convert the position to an offset in the
embedded document, query the map's source offsets under the filter, and
convert each mapped offset (component 0) to a source position. -/
def getSourcePositions (docs : DocumentsAndMap) (position : Pos)
    (filter : Nat → Bool) : List Pos :=
  (docs.2.2.getSourceOffsets (docs.2.1.offsetAt position) filter).map
    fun mapped => docs.1.positionAt mapped.1

/-- The projector `getGeneratedPositions`: the symmetric query, source → generated. -/
def getGeneratedPositions (docs : DocumentsAndMap) (position : Pos)
    (filter : Nat → Bool) : List Pos :=
  (docs.2.2.getGeneratedOffsets (docs.1.offsetAt position) filter).map
    fun mapped => docs.2.1.positionAt mapped.1

/-- Modelled from the spec: return nothing if zero results were
accumulated; otherwise `combineResults(allResults)` if supplied, else
the single first accumulated result. -/
def specReturn {T : Type} (combineResult : Combine T)
    (results : List T) : Option T :=
  if results.isEmpty then none
  else
    match combineResult with
    | some combine => some (combine results)
    | none => results.head?

/-- Modelled from the (amended) spec: what one enabled plugin invocation
of the generated path contributes to `results` — nothing when the raw
result is falsy (null, undefined, `false`, `0`, `""`, `NaN`); otherwise
the transformed result when that is truthy, else nothing. -/
def specAccepted {T : Type} (truthy : T → Bool)
    (transformResult : Transform T) (docs : DocumentsAndMap)
    (rawResult : Option T) : List T :=
  match rawResult with
  | none => []
  | some v =>
    if !truthy v then []
    else
      match transformResult v (some docs) with
      | none => []
      | some mappedResult =>
        if !truthy mappedResult then [] else [mappedResult]

/-- Like `specAccepted` for the non-generated path (no mapping context):
the accepted result of one enabled plugin invocation, if any. -/
def specAcceptedReal {T : Type} (truthy : T → Bool)
    (transformResult : Transform T) (rawResult : Option T) : Option T :=
  match rawResult with
  | none => none
  | some v =>
    if !truthy v then none
    else
      match transformResult v none with
      | none => none
      | some result =>
        if !truthy result then none else some result

/-- Modelled from the spec: first-accepted-result-wins scan of the
plugin registry in registration order, skipping disabled plugins,
invoking each enabled plugin until one result is accepted, and recording
exactly the invocations performed up to and including that one. -/
def specFirstScan {T K : Type} (context : Ctx) (truthy : T → Bool)
    (worker : Worker T K) (transformResult : Transform T)
    (document : TextDoc) (params : K) : List Plugin → DState T K
  | [] => ([], [])
  | plugin :: rest =>
    if context.disabledServicePlugins plugin.inst then
      specFirstScan context truthy worker transformResult document params rest
    else
      match specAcceptedReal truthy transformResult
          (safeCall (worker plugin document params none)) with
      | some result => ([result], [⟨plugin, document, params, none⟩])
      | none =>
        let continued :=
          specFirstScan context truthy worker transformResult document params rest
        (continued.1, ⟨plugin, document, params, none⟩ :: continued.2)

/-- Replace every throwing invocation of a worker by a `null` return. -/
def deThrowWorker {T K : Type} (worker : Worker T K) : Worker T K :=
  fun plugin document params docs =>
    match worker plugin document params docs with
    | .throws => .ret none
    | r => r
/-- Concrete text buffer used in the witness scenarios: offsets are the
character of a line-0 position. -/
def exTextDocAt (u l s : Nat) : TextDoc :=
  ⟨u, l, s, fun p => p.character, fun o => ⟨0, o⟩⟩

/-- Concrete 1:1 map oracle: generated offset 5 ⇄ source offset 3. -/
def exMapOracle : SourceMap :=
  ⟨fun o _ => if o = 5 then [(3, 0)] else [],
   fun o _ => if o = 3 then [(5, 0)] else []⟩

def exPluginA : Plugin := ⟨"A", 0⟩

def exPluginB : Plugin := ⟨"B", 1⟩

def exLeaf : VirtualCode := .mk 2 11 21 []

def exMid : VirtualCode := .mk 4 12 22 [exLeaf]

def exRoot : VirtualCode := .mk 1 10 20 [exMid]

def exNodeSolo : VirtualCode := .mk 3 11 21 []

def exSoloScript : SourceScript := ⟨0, 9, 19, some exNodeSolo⟩

def exTreeScript : SourceScript := ⟨1, 9, 19, some exRoot⟩

def exPlainScript : SourceScript := ⟨7, 9, 19, none⟩

def exScripts : Uri → Option SourceScript := fun u =>
  if u = 0 then some exSoloScript
  else if u = 1 then some exTreeScript
  else if u = 7 then some exPlainScript
  else none

/-- Concrete context: two enabled plugins, nothing disabled. -/
def exCtx : Ctx :=
  ⟨[exPluginA, exPluginB], fun _ => false, fun _ => false,
   fun s c => s * 100 + c, exTextDocAt, exScripts, fun _ _ => exMapOracle⟩

/-- Same context with the embedded document of the tree script's root
(node id 1 of script 1) disabled (encoded URI `1 * 100 + 1 = 101`). -/
def exCtxDisabled : Ctx :=
  ⟨[exPluginA, exPluginB], fun _ => false, fun u => u == 101,
   fun s c => s * 100 + c, exTextDocAt, exScripts, fun _ _ => exMapOracle⟩

def exDM : DocumentsAndMap :=
  (exTextDocAt 0 9 19, exTextDocAt 100 1 2, exMapOracle)

/-- Worker of the C4 counterexample: the plugin returns the JS value
`false` — defined (neither null nor undefined) but falsy. -/
def cexC4Worker : Worker Bool Unit := fun _ _ _ _ => .ret (some false)

/-- Transform of the C4 counterexample: accepts anything as `true`. -/
def cexC4Transform : Transform Bool := fun _ _ => some true
mutual

/-- The walker is the post-order listing, with each node's own emission
filtered by the disabled-embedded-document set. -/
theorem forEachEmbeddedDocument_eq (context : Ctx) (ss : SourceScript) :
    ∀ v, forEachEmbeddedDocument context ss v =
      (postOrderNodes v).filterMap (emitIfEnabled context ss)
  | .mk i l s children => by
    rw [forEachEmbeddedDocument, postOrderNodes, List.filterMap_append,
      forEachEmbeddedList_eq context ss children]
    cases h : context.disabledEmbeddedDocumentUris
        (context.encodeEmbeddedDocumentUri ss.sid (VirtualCode.mk i l s children).cid) <;>
      simp [List.filterMap, emitIfEnabled, h, emitDoc]

theorem forEachEmbeddedList_eq (context : Ctx) (ss : SourceScript) :
    ∀ cs, forEachEmbeddedList context ss cs =
      (postOrderList cs).filterMap (emitIfEnabled context ss)
  | [] => by simp [forEachEmbeddedList, postOrderList]
  | c :: cs => by
    rw [forEachEmbeddedList, postOrderList, List.filterMap_append,
      forEachEmbeddedDocument_eq context ss c, forEachEmbeddedList_eq context ss cs]

end
theorem specLevels_length (context : Ctx) (u : Uri) (r : VirtualCode) (n : Nat) :
    (specLevels context u r n).length = n + 1 := by
  simp [specLevels]

theorem specLevels_getD (context : Ctx) (u : Uri) (r : VirtualCode) {n k : Nat}
    (h : k ≤ n) :
    (specLevels context u r n).getD k [] = specLevel context u r k := by
  simp [specLevels, List.getD_eq_getElem?_getD, Nat.lt_succ_of_le h]

theorem specLevels_succ (context : Ctx) (u : Uri) (r : VirtualCode) (n : Nat) :
    specLevels context u r (n + 1) =
      specLevels context u r n ++ [specLevel context u r (n + 1)] := by
  simp [specLevels, List.range_succ]

/-- Running the loop on the level table `0 .. n` returns `specLevel level`. -/
theorem getEmbeddedFilesByLevelLoop_spec (context : Ctx) (u : Uri)
    (r : VirtualCode) : ∀ n level : Nat,
    getEmbeddedFilesByLevelLoop context u (specLevels context u r n) level =
      specLevel context u r level := by
  intro n level
  by_cases h : n < level
  case neg =>
    rw [getEmbeddedFilesByLevelLoop]
    simp only [specLevels_length]
    rw [if_pos (by omega)]
    exact specLevels_getD context u r (by omega)
  case pos =>
    rw [getEmbeddedFilesByLevelLoop]
    simp only [specLevels_length]
    rw [if_neg (by omega)]
    have hlast : (specLevels context u r n).getD (n + 1 - 1) []
        = specLevel context u r n := by
      simpa using specLevels_getD context u r (le_refl n)
    rw [hlast, ← specLevel, ← specLevels_succ]
    exact getEmbeddedFilesByLevelLoop_spec context u r (n + 1) level
termination_by n level => level + 1 - n

theorem postOrderList_eq_flatMap :
    ∀ cs : List VirtualCode, postOrderList cs = cs.flatMap postOrderNodes
  | [] => by simp [postOrderList]
  | c :: cs => by
    rw [postOrderList, postOrderList_eq_flatMap cs, List.flatMap_cons]

theorem forEachEmbeddedList_eq_flatMap (context : Ctx) (ss : SourceScript) :
    ∀ cs : List VirtualCode, forEachEmbeddedList context ss cs =
      cs.flatMap (forEachEmbeddedDocument context ss)
  | [] => by simp [forEachEmbeddedList]
  | c :: cs => by
    rw [forEachEmbeddedList, forEachEmbeddedList_eq_flatMap context ss cs,
      List.flatMap_cons]

/-- C2: the walker `forEachEmbeddedDocument` emits exactly the post-order
node listing of the tree (each node's own emission filtered by the
disabled set), where post-order means: every descendant's document comes
first — children in declared order, deepest first — and the node itself
comes only after all of its descendants. -/
theorem walker_emits_post_order (context : Ctx) (ss : SourceScript)
    (root : VirtualCode) :
    forEachEmbeddedDocument context ss root =
      (postOrderNodes root).filterMap (emitIfEnabled context ss) ∧
    ∀ v : VirtualCode,
      postOrderNodes v = v.embeddedCodes.flatMap postOrderNodes ++ [v] := by
  refine ⟨forEachEmbeddedDocument_eq context ss root, fun v => ?_⟩
  cases v with
  | mk i l s cs =>
    rw [postOrderNodes, postOrderList_eq_flatMap]
    rfl

/-- C3: a node whose encoded embedded-document URI is disabled emits
nothing of its own, but the walk still recurses into each of its
children independently. -/
theorem walker_skips_disabled_node_not_children (context : Ctx)
    (ss : SourceScript) (cur : VirtualCode)
    (h : context.disabledEmbeddedDocumentUris
      (context.encodeEmbeddedDocumentUri ss.sid cur.cid) = true) :
    forEachEmbeddedDocument context ss cur =
      cur.embeddedCodes.flatMap (forEachEmbeddedDocument context ss) := by
  cases cur with
  | mk i l s cs =>
    rw [forEachEmbeddedDocument]
    rw [show (VirtualCode.mk i l s cs).embeddedCodes = cs from rfl]
    rw [← forEachEmbeddedList_eq_flatMap]
    simp only [h, if_true, List.append_nil]

/-- Witness for C3: with the tree script's root disabled, the walk of the
root is exactly the concatenation of its children's walks. -/
theorem walker_skips_disabled_node_witness :
    forEachEmbeddedDocument exCtxDisabled exTreeScript exRoot =
      exRoot.embeddedCodes.flatMap
        (forEachEmbeddedDocument exCtxDisabled exTreeScript) :=
  walker_skips_disabled_node_not_children exCtxDisabled exTreeScript exRoot rfl

theorem getEmbeddedFilesByLevel_eq (context : Ctx) (u : Uri)
    (root : VirtualCode) (level : Nat) :
    getEmbeddedFilesByLevel context u root level =
      specLevel context u root level := by
  have h := getEmbeddedFilesByLevelLoop_spec context u root 0 level
  simpa [getEmbeddedFilesByLevel, specLevels, specLevel] using h

/-- C7: level 0 of the level-indexed view is `[root]`, and level k+1 is
the in-order concatenation, over the nodes of level k, of their children
whose encoded embedded-document URI is not disabled. -/
theorem level_view_spec (context : Ctx) (u : Uri) (root : VirtualCode) :
    getEmbeddedFilesByLevel context u root 0 = [root] ∧
    ∀ k : Nat, getEmbeddedFilesByLevel context u root (k + 1) =
      (getEmbeddedFilesByLevel context u root k).flatMap fun file =>
        file.embeddedCodes.filter fun embedded =>
          !context.disabledEmbeddedDocumentUris
            (context.encodeEmbeddedDocumentUri u embedded.cid) := by
  constructor
  · rw [getEmbeddedFilesByLevel_eq]
    rfl
  · intro k
    rw [getEmbeddedFilesByLevel_eq, getEmbeddedFilesByLevel_eq]
    rfl

/-- C10: every tuple the walker emits is built for some (enabled) node of
the tree, its source buffer fetched from the cache under the root source
script's URI but the embedded node's language id and snapshot, and its
embedded buffer under the encoded embedded-document URI with the same
embedded language id and snapshot. -/
theorem walker_tuple_cache_keys (context : Ctx) (ss : SourceScript)
    (root : VirtualCode) (d : DocumentsAndMap)
    (hd : d ∈ forEachEmbeddedDocument context ss root) :
    ∃ cur ∈ postOrderNodes root,
      context.disabledEmbeddedDocumentUris
        (context.encodeEmbeddedDocumentUri ss.sid cur.cid) = false ∧
      d.1 = context.documents ss.sid cur.languageId cur.snapshot ∧
      d.2.1 = context.documents
        (context.encodeEmbeddedDocumentUri ss.sid cur.cid)
        cur.languageId cur.snapshot ∧
      d.2.2 = context.maps cur ss := by
  rw [forEachEmbeddedDocument_eq] at hd
  rcases List.mem_filterMap.mp hd with ⟨cur, hmem, hemit⟩
  refine ⟨cur, hmem, ?_⟩
  unfold emitIfEnabled at hemit
  by_cases hdis : context.disabledEmbeddedDocumentUris
      (context.encodeEmbeddedDocumentUri ss.sid cur.cid) = true
  · rw [if_pos hdis] at hemit
    exact absurd hemit (by simp)
  · rw [if_neg hdis] at hemit
    rcases Option.some.inj hemit with rfl
    exact ⟨Bool.eq_false_iff.mpr hdis, rfl, rfl, rfl⟩

/-- Witness for C10 at the leaf of the concrete three-level tree. -/
theorem walker_tuple_cache_keys_witness :
    ∃ cur ∈ postOrderNodes exRoot,
      exCtx.disabledEmbeddedDocumentUris
        (exCtx.encodeEmbeddedDocumentUri exTreeScript.sid cur.cid) = false ∧
      (emitDoc exCtx exTreeScript exLeaf).1 =
        exCtx.documents exTreeScript.sid cur.languageId cur.snapshot ∧
      (emitDoc exCtx exTreeScript exLeaf).2.1 =
        exCtx.documents
          (exCtx.encodeEmbeddedDocumentUri exTreeScript.sid cur.cid)
          cur.languageId cur.snapshot ∧
      (emitDoc exCtx exTreeScript exLeaf).2.2 =
        exCtx.maps cur exTreeScript :=
  walker_tuple_cache_keys exCtx exTreeScript exRoot
    (emitDoc exCtx exTreeScript exLeaf) (List.mem_cons_self _ _)

/-- C9: for a 1:1 correspondence (the generated offset of the position
maps to exactly one source offset, which maps back to exactly that
generated offset), the source projection yields one position and
projecting it back yields a position at the original generated offset. -/
theorem projection_round_trip (docs : DocumentsAndMap) (position : Pos)
    (filter : Nat → Bool) (genOff srcOff a b : Nat)
    (h1 : docs.2.1.offsetAt position = genOff)
    (h2 : docs.2.2.getSourceOffsets genOff filter = [(srcOff, a)])
    (h3 : docs.1.offsetAt (docs.1.positionAt srcOff) = srcOff)
    (h4 : docs.2.2.getGeneratedOffsets srcOff filter = [(genOff, b)])
    (h5 : docs.2.1.offsetAt (docs.2.1.positionAt genOff) = genOff) :
    ((getSourcePositions docs position filter).flatMap fun sourcePos =>
        getGeneratedPositions docs sourcePos filter).map docs.2.1.offsetAt =
      [docs.2.1.offsetAt position] := by
  simp [getSourcePositions, getGeneratedPositions, h1, h2, h3, h4, h5]

/-- Witness for C9 on the concrete 1:1 oracle (generated 5 ⇄ source 3). -/
theorem projection_round_trip_witness :
    ((getSourcePositions exDM ⟨0, 5⟩ (fun _ => true)).flatMap fun sourcePos =>
        getGeneratedPositions exDM sourcePos (fun _ => true)).map
      exDM.2.1.offsetAt = [exDM.2.1.offsetAt ⟨0, 5⟩] :=
  projection_round_trip exDM ⟨0, 5⟩ (fun _ => true) 5 3 0 0
    rfl rfl rfl rfl rfl

/-- C6: the return value of `languageFeatureWorker` is nothing when no
result was accumulated, `combineResults` of all accumulated results when
a combiner was supplied, and the first accumulated result otherwise. -/
theorem lfw_return_value (T K : Type) (context : Ctx) (uri : Uri)
    (truthy : T → Bool) (getRealDocParams : Unit → K)
    (eachVirtualDocParams : DocumentsAndMap → List K) (worker : Worker T K)
    (transformResult : Transform T) (combineResult : Combine T) :
    languageFeatureWorker context uri truthy getRealDocParams
        eachVirtualDocParams worker transformResult combineResult =
      specReturn combineResult
        (lfwResults context uri truthy getRealDocParams
          eachVirtualDocParams worker transformResult combineResult) := by
  unfold languageFeatureWorker lfwResults specReturn
  cases hs : context.scripts uri with
  | none => rfl
  | some sourceScript =>
    cases hc : combineResult with
    | none =>
      subst hc
      cases hr : (lfwRunScript context truthy getRealDocParams
          eachVirtualDocParams worker transformResult none
          uri sourceScript).1 with
      | nil => simp [hr]
      | cons x xs => simp [hr]
    | some combine =>
      subst hc
      cases hr : (lfwRunScript context truthy getRealDocParams
          eachVirtualDocParams worker transformResult (some combine)
          uri sourceScript).1 with
      | nil => simp [hr]
      | cons x xs => simp [hr]

/-- C8: when the target URI is unknown to the script registry,
`languageFeatureWorker` returns nothing, performs no plugin invocation,
and `documentFeatureWorker` likewise returns nothing. -/
theorem lfw_absent_target (T K : Type) (context : Ctx) (uri : Uri)
    (truthy : T → Bool) (getRealDocParams : Unit → K)
    (eachVirtualDocParams : DocumentsAndMap → List K) (worker : Worker T K)
    (transformResult : Transform T) (combineResult : Combine T)
    (valid : DocumentsAndMap → Bool)
    (docWorker : Plugin → TextDoc → WorkerRet T)
    (h : context.scripts uri = none) :
    languageFeatureWorker context uri truthy getRealDocParams
        eachVirtualDocParams worker transformResult combineResult = none ∧
    lfwTrace context uri truthy getRealDocParams eachVirtualDocParams
        worker transformResult combineResult = [] ∧
    documentFeatureWorker context uri truthy valid docWorker
        transformResult combineResult = none := by
  unfold documentFeatureWorker languageFeatureWorker lfwTrace
  rw [h]
  exact ⟨rfl, rfl, rfl⟩

/-- Witness for C8: URI 5 is not in the concrete script registry. -/
theorem lfw_absent_target_witness :
    languageFeatureWorker exCtx 5 (fun b : Bool => b) (fun _ => ())
        (fun _ => [()]) cexC4Worker cexC4Transform none = none ∧
    lfwTrace exCtx 5 (fun b : Bool => b) (fun _ => ()) (fun _ => [()])
        cexC4Worker cexC4Transform none = [] ∧
    documentFeatureWorker exCtx 5 (fun b : Bool => b) (fun _ => true)
        (fun _ _ => .ret (none : Option Bool)) cexC4Transform none = none :=
  lfw_absent_target Bool Unit exCtx 5 (fun b => b) (fun _ => ())
    (fun _ => [()]) cexC4Worker cexC4Transform none (fun _ => true)
    (fun _ _ => .ret none) rfl

theorem safeCall_deThrow {T K : Type} (worker : Worker T K) (plugin : Plugin)
    (document : TextDoc) (params : K) (docs : Option DocumentsAndMap) :
    safeCall (deThrowWorker worker plugin document params docs) =
      safeCall (worker plugin document params docs) := by
  unfold deThrowWorker
  cases worker plugin document params docs <;> rfl

theorem genPluginLoop_deThrow {T K : Type} (context : Ctx) (truthy : T → Bool)
    (worker : Worker T K) (transformResult : Transform T)
    (combineResult : Combine T) (docs : DocumentsAndMap) (mappedArg : K) :
    ∀ (pls : List Plugin) (st : DState T K),
    genPluginLoop context truthy (deThrowWorker worker) transformResult
        combineResult docs mappedArg pls st =
      genPluginLoop context truthy worker transformResult combineResult
        docs mappedArg pls st
  | [], st => rfl
  | plugin :: rest, st => by
    rw [genPluginLoop, genPluginLoop]
    simp only [safeCall_deThrow,
      genPluginLoop_deThrow context truthy worker transformResult
        combineResult docs mappedArg rest]

theorem virtualParamsLoop_deThrow {T K : Type} (context : Ctx)
    (truthy : T → Bool) (worker : Worker T K) (transformResult : Transform T)
    (combineResult : Combine T) (docs : DocumentsAndMap) :
    ∀ (ps : List K) (st : DState T K),
    virtualParamsLoop context truthy (deThrowWorker worker) transformResult
        combineResult docs ps st =
      virtualParamsLoop context truthy worker transformResult combineResult
        docs ps st
  | [], st => rfl
  | mappedArg :: rest, st => by
    rw [virtualParamsLoop, virtualParamsLoop]
    simp only [genPluginLoop_deThrow,
      virtualParamsLoop_deThrow context truthy worker transformResult
        combineResult docs rest]

theorem embeddedDocsLoop_deThrow {T K : Type} (context : Ctx)
    (truthy : T → Bool) (eachVirtualDocParams : DocumentsAndMap → List K)
    (worker : Worker T K) (transformResult : Transform T)
    (combineResult : Combine T) :
    ∀ (ds : List DocumentsAndMap) (st : DState T K),
    embeddedDocsLoop context truthy eachVirtualDocParams
        (deThrowWorker worker) transformResult combineResult ds st =
      embeddedDocsLoop context truthy eachVirtualDocParams worker
        transformResult combineResult ds st
  | [], st => rfl
  | docs :: rest, st => by
    rw [embeddedDocsLoop, embeddedDocsLoop]
    simp only [virtualParamsLoop_deThrow,
      embeddedDocsLoop_deThrow context truthy eachVirtualDocParams worker
        transformResult combineResult rest]

theorem realPluginLoop_deThrow {T K : Type} (context : Ctx)
    (truthy : T → Bool) (worker : Worker T K) (transformResult : Transform T)
    (combineResult : Combine T) (document : TextDoc) (params : K) :
    ∀ (pls : List Plugin) (st : DState T K),
    realPluginLoop context truthy (deThrowWorker worker) transformResult
        combineResult document params pls st =
      realPluginLoop context truthy worker transformResult combineResult
        document params pls st
  | [], st => rfl
  | plugin :: rest, st => by
    rw [realPluginLoop, realPluginLoop]
    simp only [safeCall_deThrow,
      realPluginLoop_deThrow context truthy worker transformResult
        combineResult document params rest]

theorem lfwRunScript_deThrow {T K : Type} (context : Ctx) (truthy : T → Bool)
    (getRealDocParams : Unit → K)
    (eachVirtualDocParams : DocumentsAndMap → List K) (worker : Worker T K)
    (transformResult : Transform T) (combineResult : Combine T) (uri : Uri)
    (sourceScript : SourceScript) :
    lfwRunScript context truthy getRealDocParams eachVirtualDocParams
        (deThrowWorker worker) transformResult combineResult uri sourceScript =
      lfwRunScript context truthy getRealDocParams eachVirtualDocParams
        worker transformResult combineResult uri sourceScript := by
  unfold lfwRunScript
  cases sourceScript.generated with
  | none => simp only [realPluginLoop_deThrow]
  | some root => simp only [embeddedDocsLoop_deThrow]

/-- C5: a plugin invocation that throws (or rejects) is caught and is
equivalent, for the dispatch result and for every other invocation
performed, to that plugin having returned no result; nothing propagates
(the model is total: `languageFeatureWorker` always returns an
`Option T`). -/
theorem plugin_throw_isolated (T K : Type) (context : Ctx) (uri : Uri)
    (truthy : T → Bool) (getRealDocParams : Unit → K)
    (eachVirtualDocParams : DocumentsAndMap → List K) (worker : Worker T K)
    (transformResult : Transform T) (combineResult : Combine T) :
    languageFeatureWorker context uri truthy getRealDocParams
        eachVirtualDocParams (deThrowWorker worker) transformResult
        combineResult =
      languageFeatureWorker context uri truthy getRealDocParams
        eachVirtualDocParams worker transformResult combineResult ∧
    lfwTrace context uri truthy getRealDocParams eachVirtualDocParams
        (deThrowWorker worker) transformResult combineResult =
      lfwTrace context uri truthy getRealDocParams eachVirtualDocParams
        worker transformResult combineResult := by
  unfold languageFeatureWorker lfwTrace
  cases context.scripts uri with
  | none => exact ⟨rfl, rfl⟩
  | some sourceScript => simp only [lfwRunScript_deThrow, and_self]

theorem genPluginLoop_skip {T K : Type} (context : Ctx) (truthy : T → Bool)
    (worker : Worker T K) (transformResult : Transform T)
    (docs : DocumentsAndMap) (mappedArg : K) :
    ∀ (pls : List Plugin) (st : DState T K), st.1 ≠ [] →
    genPluginLoop context truthy worker transformResult none docs mappedArg
      pls st = st
  | [], st, _ => rfl
  | plugin :: rest, st, h => by
    rw [genPluginLoop]
    have hlen : (st.1.length != 0 && !(none : Combine T).isSome) = true := by
      simp [List.length_eq_zero, h]
    by_cases hdis : context.disabledServicePlugins plugin.inst = true
    · rw [if_pos hdis]
      exact genPluginLoop_skip context truthy worker transformResult
        docs mappedArg rest st h
    · rw [if_neg hdis, if_pos hlen]
      exact genPluginLoop_skip context truthy worker transformResult
        docs mappedArg rest st h

theorem virtualParamsLoop_skip {T K : Type} (context : Ctx)
    (truthy : T → Bool) (worker : Worker T K) (transformResult : Transform T)
    (docs : DocumentsAndMap) :
    ∀ (ps : List K) (st : DState T K), st.1 ≠ [] →
    virtualParamsLoop context truthy worker transformResult none docs ps st = st
  | [], st, _ => rfl
  | mappedArg :: rest, st, h => by
    rw [virtualParamsLoop]
    have hlen : (st.1.length != 0 && !(none : Combine T).isSome) = true := by
      simp [List.length_eq_zero, h]
    rw [if_pos hlen]
    exact virtualParamsLoop_skip context truthy worker transformResult
      docs rest st h

theorem embeddedDocsLoop_skip {T K : Type} (context : Ctx)
    (truthy : T → Bool) (eachVirtualDocParams : DocumentsAndMap → List K)
    (worker : Worker T K) (transformResult : Transform T) :
    ∀ (ds : List DocumentsAndMap) (st : DState T K), st.1 ≠ [] →
    embeddedDocsLoop context truthy eachVirtualDocParams worker
      transformResult none ds st = st
  | [], st, _ => rfl
  | docs :: rest, st, h => by
    rw [embeddedDocsLoop]
    have hlen : (st.1.length != 0 && !(none : Combine T).isSome) = true := by
      simp [List.length_eq_zero, h]
    rw [if_pos hlen]
    exact embeddedDocsLoop_skip context truthy eachVirtualDocParams worker
      transformResult rest st h

theorem genPluginLoop_len_le_one {T K : Type} (context : Ctx)
    (truthy : T → Bool) (worker : Worker T K) (transformResult : Transform T)
    (docs : DocumentsAndMap) (mappedArg : K) :
    ∀ (pls : List Plugin) (st : DState T K), st.1.length ≤ 1 →
    (genPluginLoop context truthy worker transformResult none docs mappedArg
      pls st).1.length ≤ 1
  | [], _, h => h
  | plugin :: rest, (rs, tr), h => by
    rw [genPluginLoop]
    by_cases hdis : context.disabledServicePlugins plugin.inst = true
    · rw [if_pos hdis]
      exact genPluginLoop_len_le_one context truthy worker transformResult
        docs mappedArg rest (rs, tr) h
    · rw [if_neg hdis]
      by_cases hne : rs = []
      · subst hne
        rw [if_neg (by simp)]
        cases hres : safeCall (worker plugin docs.2.1 mappedArg (some docs)) with
        | none =>
          exact genPluginLoop_len_le_one context truthy worker transformResult
            docs mappedArg rest _ (by simp)
        | some v =>
          dsimp only
          by_cases ht : truthy v = true
          · rw [if_neg (by simp [ht])]
            cases htr : transformResult v (some docs) with
            | none =>
              exact genPluginLoop_len_le_one context truthy worker
                transformResult docs mappedArg rest _ (by simp)
            | some mappedResult =>
              dsimp only
              by_cases ht2 : truthy mappedResult = true
              · rw [if_neg (by simp [ht2])]
                exact genPluginLoop_len_le_one context truthy worker
                  transformResult docs mappedArg rest _ (by simp)
              · have h2 : truthy mappedResult = false := Bool.eq_false_iff.mpr ht2
                rw [if_pos (by simp [h2])]
                exact genPluginLoop_len_le_one context truthy worker
                  transformResult docs mappedArg rest _ (by simp)
          · have hv : truthy v = false := Bool.eq_false_iff.mpr ht
            rw [if_pos (by simp [hv])]
            exact genPluginLoop_len_le_one context truthy worker
              transformResult docs mappedArg rest _ (by simp)
      · rw [if_pos (by simp [List.length_eq_zero, hne])]
        exact genPluginLoop_len_le_one context truthy worker transformResult
          docs mappedArg rest (rs, tr) h

theorem virtualParamsLoop_len_le_one {T K : Type} (context : Ctx)
    (truthy : T → Bool) (worker : Worker T K) (transformResult : Transform T)
    (docs : DocumentsAndMap) :
    ∀ (ps : List K) (st : DState T K), st.1.length ≤ 1 →
    (virtualParamsLoop context truthy worker transformResult none docs
      ps st).1.length ≤ 1
  | [], _, h => h
  | mappedArg :: rest, st, h => by
    rw [virtualParamsLoop]
    by_cases hcond : (st.1.length != 0 && !(none : Combine T).isSome) = true
    · rw [if_pos hcond]
      exact virtualParamsLoop_len_le_one context truthy worker transformResult
        docs rest st h
    · rw [if_neg hcond]
      exact virtualParamsLoop_len_le_one context truthy worker transformResult
        docs rest _
        (genPluginLoop_len_le_one context truthy worker transformResult
          docs mappedArg context.plugins st h)

theorem embeddedDocsLoop_len_le_one {T K : Type} (context : Ctx)
    (truthy : T → Bool) (eachVirtualDocParams : DocumentsAndMap → List K)
    (worker : Worker T K) (transformResult : Transform T) :
    ∀ (ds : List DocumentsAndMap) (st : DState T K), st.1.length ≤ 1 →
    (embeddedDocsLoop context truthy eachVirtualDocParams worker
      transformResult none ds st).1.length ≤ 1
  | [], _, h => h
  | docs :: rest, st, h => by
    rw [embeddedDocsLoop]
    by_cases hcond : (st.1.length != 0 && !(none : Combine T).isSome) = true
    · rw [if_pos hcond]
      exact embeddedDocsLoop_len_le_one context truthy eachVirtualDocParams
        worker transformResult rest st h
    · rw [if_neg hcond]
      exact embeddedDocsLoop_len_le_one context truthy eachVirtualDocParams
        worker transformResult rest _
        (virtualParamsLoop_len_le_one context truthy worker transformResult
          docs (eachVirtualDocParams docs) st h)

theorem realPluginLoop_cons_enabled {T K : Type} (context : Ctx)
    (truthy : T → Bool) (worker : Worker T K) (transformResult : Transform T)
    (document : TextDoc) (params : K) (plugin : Plugin) (rest : List Plugin)
    (rs : List T) (tr : List (InvRec K))
    (hdis : context.disabledServicePlugins plugin.inst = false) :
    realPluginLoop context truthy worker transformResult none document params
        (plugin :: rest) (rs, tr) =
      match specAcceptedReal truthy transformResult
          (safeCall (worker plugin document params none)) with
      | some result =>
        (rs ++ [result], tr ++ [⟨plugin, document, params, none⟩])
      | none =>
        realPluginLoop context truthy worker transformResult none document
          params rest (rs, tr ++ [⟨plugin, document, params, none⟩]) := by
  rw [realPluginLoop, if_neg (by simp [hdis])]
  unfold specAcceptedReal
  cases hres : safeCall (worker plugin document params none) with
  | none => simp
  | some v =>
    cases hv : truthy v with
    | false => simp [hv]
    | true =>
      cases htr : transformResult v none with
      | none => simp [hv, htr]
      | some result =>
        cases hr : truthy result with
        | false => simp [hv, htr, hr]
        | true => simp [hv, htr, hr]

theorem realPluginLoop_cons_disabled {T K : Type} (context : Ctx)
    (truthy : T → Bool) (worker : Worker T K) (transformResult : Transform T)
    (combineResult : Combine T) (document : TextDoc) (params : K)
    (plugin : Plugin) (rest : List Plugin) (st : DState T K)
    (hdis : context.disabledServicePlugins plugin.inst = true) :
    realPluginLoop context truthy worker transformResult combineResult
        document params (plugin :: rest) st =
      realPluginLoop context truthy worker transformResult combineResult
        document params rest st := by
  rw [realPluginLoop, if_pos hdis]

theorem realPluginLoop_trace_shift {T K : Type} (context : Ctx)
    (truthy : T → Bool) (worker : Worker T K) (transformResult : Transform T)
    (document : TextDoc) (params : K) :
    ∀ (pls : List Plugin) (rs : List T) (tr : List (InvRec K)),
    realPluginLoop context truthy worker transformResult none document params
        pls (rs, tr) =
      ((realPluginLoop context truthy worker transformResult none document
          params pls (rs, [])).1,
       tr ++ (realPluginLoop context truthy worker transformResult none
          document params pls (rs, [])).2)
  | [], rs, tr => by simp [realPluginLoop]
  | plugin :: rest, rs, tr => by
    by_cases hdis : context.disabledServicePlugins plugin.inst = true
    · rw [realPluginLoop_cons_disabled context truthy worker transformResult
        none document params plugin rest (rs, tr) hdis,
        realPluginLoop_cons_disabled context truthy worker transformResult
        none document params plugin rest (rs, []) hdis]
      exact realPluginLoop_trace_shift context truthy worker transformResult
        document params rest rs tr
    · have hdis2 : context.disabledServicePlugins plugin.inst = false :=
        Bool.eq_false_iff.mpr hdis
      rw [realPluginLoop_cons_enabled context truthy worker transformResult
        document params plugin rest rs tr hdis2,
        realPluginLoop_cons_enabled context truthy worker transformResult
        document params plugin rest rs [] hdis2]
      cases hacc : specAcceptedReal truthy transformResult
          (safeCall (worker plugin document params none)) with
      | some result => simp
      | none =>
        rw [List.nil_append]
        rw [realPluginLoop_trace_shift context truthy worker transformResult
          document params rest rs
          (tr ++ [(⟨plugin, document, params, none⟩ : InvRec K)]),
          realPluginLoop_trace_shift context truthy worker transformResult
          document params rest rs
          [(⟨plugin, document, params, none⟩ : InvRec K)]]
        simp

theorem realPluginLoop_eq_firstScan {T K : Type} (context : Ctx)
    (truthy : T → Bool) (worker : Worker T K) (transformResult : Transform T)
    (document : TextDoc) (params : K) :
    ∀ pls : List Plugin,
    realPluginLoop context truthy worker transformResult none document params
        pls ([], []) =
      specFirstScan context truthy worker transformResult document params pls
  | [] => rfl
  | plugin :: rest => by
    rw [specFirstScan]
    by_cases hdis : context.disabledServicePlugins plugin.inst = true
    · rw [realPluginLoop_cons_disabled context truthy worker transformResult
        none document params plugin rest ([], []) hdis, if_pos hdis]
      exact realPluginLoop_eq_firstScan context truthy worker transformResult
        document params rest
    · have hdis2 : context.disabledServicePlugins plugin.inst = false :=
        Bool.eq_false_iff.mpr hdis
      rw [realPluginLoop_cons_enabled context truthy worker transformResult
        document params plugin rest [] [] hdis2, if_neg hdis]
      cases hacc : specAcceptedReal truthy transformResult
          (safeCall (worker plugin document params none)) with
      | some result => rfl
      | none =>
        rw [List.nil_append]
        rw [realPluginLoop_trace_shift context truthy worker transformResult
          document params rest []
          [(⟨plugin, document, params, none⟩ : InvRec K)]]
        rw [realPluginLoop_eq_firstScan context truthy worker transformResult
          document params rest]
        simp

/-- C1: with no `combineResult` supplied (`none`), once a result has been
accumulated each loop level of the generated path — remaining plugins,
remaining parameter sets from `eachVirtualDocParams`, remaining embedded
documents — performs no further invocation and no further accumulation
(the state, invocation log included, passes through unchanged), so a
whole generated-path run accumulates at most one result — the first
accepted one in walker order / registration order; and the non-generated
path is exactly the first-accepted-result-wins scan of the registry in
registration order, which stops invoking after the first accumulated
result. -/
theorem lfw_short_circuit (T K : Type) (context : Ctx) (truthy : T → Bool)
    (eachVirtualDocParams : DocumentsAndMap → List K) (worker : Worker T K)
    (transformResult : Transform T) :
    (∀ (docs : DocumentsAndMap) (mappedArg : K) (pls : List Plugin)
       (st : DState T K), st.1 ≠ [] →
       genPluginLoop context truthy worker transformResult none docs
         mappedArg pls st = st) ∧
    (∀ (docs : DocumentsAndMap) (ps : List K) (st : DState T K), st.1 ≠ [] →
       virtualParamsLoop context truthy worker transformResult none docs
         ps st = st) ∧
    (∀ (ds : List DocumentsAndMap) (st : DState T K), st.1 ≠ [] →
       embeddedDocsLoop context truthy eachVirtualDocParams worker
         transformResult none ds st = st) ∧
    (∀ ds : List DocumentsAndMap,
       (embeddedDocsLoop context truthy eachVirtualDocParams worker
         transformResult none ds ([], [])).1.length ≤ 1) ∧
    (∀ (document : TextDoc) (params : K) (pls : List Plugin),
       realPluginLoop context truthy worker transformResult none document
           params pls ([], []) =
         specFirstScan context truthy worker transformResult document
           params pls) :=
  ⟨fun docs mappedArg pls st h =>
      genPluginLoop_skip context truthy worker transformResult docs
        mappedArg pls st h,
   fun docs ps st h =>
      virtualParamsLoop_skip context truthy worker transformResult docs
        ps st h,
   fun ds st h =>
      embeddedDocsLoop_skip context truthy eachVirtualDocParams worker
        transformResult ds st h,
   fun ds =>
      embeddedDocsLoop_len_le_one context truthy eachVirtualDocParams worker
        transformResult ds ([], []) (by simp),
   fun document params pls =>
      realPluginLoop_eq_firstScan context truthy worker transformResult
        document params pls⟩

/-- Witness for C1 at concrete inputs: a non-empty result list passes
unchanged through each generated-path loop, and a concrete real-path run
equals the first-accepted scan. -/
theorem lfw_short_circuit_witness :
    genPluginLoop exCtx (fun b : Bool => b) cexC4Worker cexC4Transform none
        exDM () [exPluginA, exPluginB] ([true], []) = ([true], []) ∧
    embeddedDocsLoop exCtx (fun b : Bool => b) (fun _ => [()]) cexC4Worker
        cexC4Transform none [exDM] ([true], []) = ([true], []) ∧
    realPluginLoop exCtx (fun b : Bool => b) cexC4Worker cexC4Transform none
        (exTextDocAt 7 9 19) () [exPluginA, exPluginB] ([], []) =
      specFirstScan exCtx (fun b : Bool => b) cexC4Worker cexC4Transform
        (exTextDocAt 7 9 19) () [exPluginA, exPluginB] :=
  ⟨(lfw_short_circuit Bool Unit exCtx (fun b => b) (fun _ => [()])
      cexC4Worker cexC4Transform).1 exDM () [exPluginA, exPluginB]
      ([true], []) (by simp),
   (lfw_short_circuit Bool Unit exCtx (fun b => b) (fun _ => [()])
      cexC4Worker cexC4Transform).2.2.1 [exDM] ([true], []) (by simp),
   (lfw_short_circuit Bool Unit exCtx (fun b => b) (fun _ => [()])
      cexC4Worker cexC4Transform).2.2.2.2 (exTextDocAt 7 9 19) ()
      [exPluginA, exPluginB]⟩

/-- C4 (amended): in the generated path, an enabled, non-short-circuited
plugin invocation is always performed (the log grows by its record) and
contributes to `results` exactly `specAccepted` of its raw result:
nothing when the raw result is falsy — null, undefined, `false`, `0`,
`""`, `NaN` — and otherwise the `transformResult` projection of it when
that projection yields a truthy value, else nothing.  (The raw-result
guard is JS truthiness, not merely a null/undefined check.) -/
theorem gen_plugin_step_accepts (T K : Type) (context : Ctx)
    (truthy : T → Bool) (worker : Worker T K) (transformResult : Transform T)
    (combineResult : Combine T) (docs : DocumentsAndMap) (mappedArg : K)
    (plugin : Plugin) (rest : List Plugin) (rs : List T)
    (tr : List (InvRec K))
    (hdis : context.disabledServicePlugins plugin.inst = false)
    (hsc : (rs.length != 0 && !combineResult.isSome) = false) :
    genPluginLoop context truthy worker transformResult combineResult docs
        mappedArg (plugin :: rest) (rs, tr) =
      genPluginLoop context truthy worker transformResult combineResult docs
        mappedArg rest
        (rs ++ specAccepted truthy transformResult docs
          (safeCall (worker plugin docs.2.1 mappedArg (some docs))),
         tr ++ [⟨plugin, docs.2.1, mappedArg, some docs⟩]) := by
  rw [genPluginLoop, if_neg (by simp [hdis]), if_neg (by rw [hsc]; simp)]
  unfold specAccepted
  cases hres : safeCall (worker plugin docs.2.1 mappedArg (some docs)) with
  | none => simp
  | some v =>
    cases hv : truthy v with
    | false => simp [hv]
    | true =>
      cases htr : transformResult v (some docs) with
      | none => simp [hv, htr]
      | some mappedResult =>
        cases hr : truthy mappedResult with
        | false => simp [hv, htr, hr]
        | true => simp [hv, htr, hr]

/-- Witness for the amended C4 at concrete inputs: the raw result
`some false` is defined but falsy, so the invocation is logged and
contributes nothing. -/
theorem gen_plugin_step_accepts_witness :
    genPluginLoop exCtx (fun b : Bool => b) cexC4Worker cexC4Transform none
        exDM () [exPluginA] ([], []) =
      genPluginLoop exCtx (fun b : Bool => b) cexC4Worker cexC4Transform none
        exDM () []
        (([] : List Bool) ++ specAccepted (fun b : Bool => b) cexC4Transform
          exDM (safeCall (cexC4Worker exPluginA exDM.2.1 () (some exDM))),
         ([] : List (InvRec Unit)) ++ [⟨exPluginA, exDM.2.1, (), some exDM⟩]) :=
  gen_plugin_step_accepts Bool Unit exCtx (fun b => b) cexC4Worker
    cexC4Transform none exDM () exPluginA [] [] [] rfl rfl

/-- Counterexample to C4 as stated: the plugin's raw result `false` is
neither null nor undefined, and the projection of `false` yields the
truthy value `true`, so under the claim the projected value would be
accumulated and (with no combiner) returned; the code instead skips any
falsy raw result without projecting it and returns nothing. -/
theorem gen_raw_false_skipped_counterexample :
    safeCall (cexC4Worker exPluginA (exTextDocAt 0 11 21) () (some exDM)) =
      some false ∧
    cexC4Transform false (some exDM) = some true ∧
    languageFeatureWorker exCtx 0 (fun b : Bool => b) (fun _ => ())
      (fun _ => [()]) cexC4Worker cexC4Transform none = none :=
  ⟨rfl, rfl, rfl⟩
